import Mathlib

/-!
Verification development for the Fokus-Flow repository: a shallow embedding
of the gamification and monetization state-progression engine (XP/levels,
streaks, subscription tiers, referral commissions, withdrawals, the unlock
evaluator, the Pomodoro timer step, and the translation lookup), with
theorems settling the specification's claims against it.

The repository ships the React frontends and deployment scripts; the
backend ledger functions are not in the tree.  Definitions embedded from
frontend code cite their file and line; definitions for the missing backend
are modelled from the specification and say so in their doc comment.
Money is represented in integer cents (so EUR 5 is 500).
-/

namespace FokusFlow

/-! ## Subscription tiers -/

/-- The five subscription tiers of the data model: `free`,
`premium_monthly`, `premium_yearly`, `premium_lifetime`, and the
grandfathered `legacy_premium` state. -/
inductive Tier where
  | free
  | premium_monthly
  | premium_yearly
  | premium_lifetime
  | legacy_premium
deriving DecidableEq, Repr

/-- The string stored in `subscription_tier` for each tier.  Users from
before the multi-tier EUR pricing migration carry the plain string
`"premium"`; the repository's migration log calls these users "legacy
premium", so the `legacy_premium` tier is stored as `"premium"`. -/
def tierString : Tier → String
  | .free => "free"
  | .premium_monthly => "premium_monthly"
  | .premium_yearly => "premium_yearly"
  | .premium_lifetime => "premium_lifetime"
  | .legacy_premium => "premium"

/-- Embedded from `src/unnamed/part_003` line 2407: the frontend helper
checking whether a subscription-tier string grants premium access. -/
def isPremiumUser (subscriptionTier : String) : Bool :=
  ["premium", "premium_monthly", "premium_yearly", "premium_lifetime"].contains subscriptionTier

/-! ## User Progression Record -/

/-- The persistent per-user progression state of the data model:
XP total, derived level, streak counter, last activity day (an absolute
day number, so "one calendar day later" is `+ 1`), subscription tier and
the append-only set of unlocked achievement ids. -/
structure ProgressionRecord where
  total_xp : Nat
  level : Nat
  current_streak : Nat
  last_activity_date : Nat
  subscription_tier : Tier
  unlocked_achievement_ids : List String
deriving DecidableEq, Repr

/-- Level derived from an XP total: `floor(total_xp / 100) + 1`
(`Nat` division already floors). -/
def levelFor (totalXp : Nat) : Nat :=
  totalXp / 100 + 1

/-- Typed business failures of the core ledger functions. -/
inductive LedgerError where
  | invalidAmount
  | insufficientBalance
  | duplicateReferral
deriving DecidableEq, Repr

/-- Modelled from the spec: the Progression Ledger's XP bonus.  The
subscription-tier bonus multiplier is 1.20 for any premium-like tier and
1.00 for free, and the bonus XP is rounded down to the nearest integer
before adding, so a premium-like tier gains `floor(amount * 12 / 10)`.
The backend implementation is not in the tree. -/
def bonusXp (tier : Tier) (amount : Nat) : Nat :=
  if isPremiumUser (tierString tier) then amount * 12 / 10 else amount

/-- Modelled from the spec: `applyXp(record, amount)` of the Progression
Ledger, absent from the tree.  The amount must be a positive integer
(failure `InvalidAmount` otherwise); the tier bonus is applied internally
and `level` is always recomputed from the new total, never independently
set. -/
def applyXp (r : ProgressionRecord) (amount : Nat) : Except LedgerError ProgressionRecord :=
  if amount = 0 then
    .error .invalidAmount
  else
    let gained := bonusXp r.subscription_tier amount
    let newTotal := r.total_xp + gained
    .ok { r with total_xp := newTotal, level := levelFor newTotal }

/-- Modelled from the spec: `updateStreak(record, activityDate)` of the
Progression Ledger, absent from the tree.  Same day: no change; exactly
one calendar day after `last_activity_date`: increment `current_streak`;
more than one day elapsed: reset `current_streak` to 1.  The spec leaves
an activity date before the recorded one unspecified; the model leaves
the record unchanged there. -/
def updateStreak (r : ProgressionRecord) (activityDate : Nat) : ProgressionRecord :=
  if activityDate = r.last_activity_date then
    r
  else if activityDate = r.last_activity_date + 1 then
    { r with current_streak := r.current_streak + 1, last_activity_date := activityDate }
  else if r.last_activity_date + 1 < activityDate then
    { r with current_streak := 1, last_activity_date := activityDate }
  else
    r

/-! ## The frontend's demo user -/

/-- The user object built by the frontend, with the fields of the literal
in `initializeUser` (`src/unnamed/part_003` lines 2931-2942).
`total_commission_earned` is in cents. -/
structure FrontendUser where
  id : String
  name : String
  email : String
  subscription_tier : String
  total_xp : Nat
  level : Nat
  current_streak : Nat
  total_referrals : Nat
  total_commission_earned : Int
  referral_code : String
deriving DecidableEq, Repr

/-- Embedded from `src/unnamed/part_003` lines 2931-2942: the default user
record created by `initializeUser`. -/
def defaultUser : FrontendUser :=
  { id := "demo-user-id"
    name := "Demo User"
    email := "demo@focusflow.app"
    subscription_tier := "free"
    total_xp := 0
    level := 1
    current_streak := 0
    total_referrals := 0
    total_commission_earned := 0
    referral_code := "DEMO123" }

/-! ## Commission Ledger -/

/-- Status of a referral edge's commission. -/
inductive CommissionStatus where
  | pending
  | earned
  | paid
deriving DecidableEq, Repr

/-- A referral edge of the data model: referrer, referred user (at most
one referrer per referred user), commission status and amount (cents). -/
structure ReferralEdge where
  referrer_id : String
  referred_id : String
  status : CommissionStatus
  amount : Int
deriving DecidableEq, Repr

/-- Status of a withdrawal-history entry. -/
inductive WithdrawalStatus where
  | pending
  | completed
deriving DecidableEq, Repr

/-- An entry of a wallet's append-only withdrawal history:
amount (cents), timestamp, status. -/
structure WithdrawalRecord where
  amount : Int
  timestamp : Nat
  status : WithdrawalStatus
deriving DecidableEq, Repr

/-- A per-user commission wallet: lifetime earnings, balance available for
withdrawal, and the append-only withdrawal history (amounts in cents). -/
structure CommissionWallet where
  total_earned : Int
  available_balance : Int
  withdrawal_history : List WithdrawalRecord
deriving DecidableEq, Repr

/-- Modelled from the spec: the commission amount in cents looked up by
the referred user's tier at activation: monthly EUR 5, yearly EUR 15,
lifetime EUR 25.  Activation only ever happens to one of the three paid
tiers, so the other tiers are given amount 0. -/
def commissionCents : Tier → Int
  | .premium_monthly => 500
  | .premium_yearly => 1500
  | .premium_lifetime => 2500
  | .free => 0
  | .legacy_premium => 0

/-- Modelled from the spec: `accrueCommission(edge, referredTier)` of the
Commission Ledger, absent from the tree.  The per-edge status is the
"commission already accrued" flag checked before mutating the wallet:
only a `pending` edge accrues, moving to `earned` and crediting the
referrer's wallet immediately (instant payout model); any other status
leaves both the edge and the wallet unchanged, so a repeated delivery of
the activation event is a no-op. -/
def accrueCommission (edge : ReferralEdge) (referredTier : Tier)
    (wallet : CommissionWallet) : ReferralEdge × CommissionWallet :=
  if edge.status = .pending then
    let amt := commissionCents referredTier
    ({ edge with status := .earned, amount := amt },
     { wallet with
        total_earned := wallet.total_earned + amt
        available_balance := wallet.available_balance + amt })
  else
    (edge, wallet)

/-- Modelled from the spec: `requestWithdrawal(wallet, amount)` of the
Commission Ledger, absent from the tree.  Fails with
`InsufficientBalance` when `amount > available_balance` (the pure
function then yields no updated wallet, so the caller's wallet is
untouched); on success the balance decreases by the amount and a
`pending` withdrawal record is appended.  The `now` argument supplies the
timestamp the spec puts in the appended history entry. -/
def requestWithdrawal (wallet : CommissionWallet) (amount : Int) (now : Nat) :
    Except LedgerError CommissionWallet :=
  if amount > wallet.available_balance then
    .error .insufficientBalance
  else
    .ok { wallet with
            available_balance := wallet.available_balance - amount
            withdrawal_history :=
              wallet.withdrawal_history ++ [⟨amount, now, .pending⟩] }

/-! ## Reward Catalog and Unlock Evaluator -/

/-- A static reward definition: identifier, unlock predicate over the
progression record, and XP reward fed back through `applyXp`. -/
structure RewardDefinition where
  id : String
  predicate : ProgressionRecord → Bool
  xp_reward : Nat

/-- Modelled from the spec: `evaluate(beforeRecord, afterRecord, catalog)`
of the Unlock Evaluator, absent from the tree.  Returns the catalog
entries with `predicate(after) AND NOT predicate(before) AND id NOT IN
afterRecord.unlocked_achievement_ids`. -/
def evaluateUnlocks (before after : ProgressionRecord)
    (catalog : List RewardDefinition) : List RewardDefinition :=
  catalog.filter fun d =>
    d.predicate after && !d.predicate before
      && !(after.unlocked_achievement_ids.contains d.id)

/-! ## Pomodoro timer step -/

/-- The three period types of the Pomodoro timer. -/
inductive SessionType where
  | focus
  | short_break
  | long_break
deriving DecidableEq, Repr

/-- Embedded from `src/frontend/src/App.js` lines 120-123 (identically in
`src/unnamed/part_003` lines 1253-1256): the default duration in seconds
of each period type. -/
def sessionDuration : SessionType → Nat
  | .focus => 25 * 60
  | .short_break => 5 * 60
  | .long_break => 15 * 60

/-- Embedded from `src/frontend/src/App.js` lines 120-123: the `next`
field of `sessionTypes`, i.e. the period type the timer auto-switches to
when the current period completes. -/
def sessionNext : SessionType → SessionType
  | .focus => .short_break
  | .short_break => .focus
  | .long_break => .focus

/-- The component state of `PomodoroSession` that
`handleSessionComplete` touches: the current period type, the id of the
server-side session started for it (null until `startTimer` succeeds),
the running flag and the remaining seconds. -/
structure TimerState where
  sessionType : SessionType
  currentSessionId : Option String
  isActive : Bool
  timeLeft : Nat
deriving DecidableEq, Repr

/-- Embedded from `src/frontend/src/App.js` lines 163-181 (identically in
`src/unnamed/part_003` lines 1369-1391): `handleSessionComplete` stops
the timer, calls the server-side completion endpoint exactly when a
session id is present and the finished period is `focus` (the returned
flag), then auto-switches to the next period type and clears the session
id. -/
def handleSessionComplete (s : TimerState) : TimerState × Bool :=
  let reports := s.currentSessionId.isSome && s.sessionType == .focus
  let nextType := sessionNext s.sessionType
  ({ sessionType := nextType
     currentSessionId := none
     isActive := false
     timeLeft := sessionDuration nextType }, reports)

/-! ## Client-side withdrawal request -/

/-- The referral statistics object the `ReferralDashboard` component
receives from the backend, with the fields the component reads
(`src/unnamed/part_003` lines 596-760); money fields in cents. -/
structure ReferralStats where
  total_commission_earned : Int
  available_for_withdrawal : Int
  available_balance : Int
  total_referrals : Nat
  referral_code : String
  referral_link : String
deriving DecidableEq, Repr

/-- The JSON body the client posts to the withdrawal endpoint: it has a
single field. -/
structure WithdrawRequestBody where
  method : String
deriving DecidableEq, Repr

/-- Embedded from `src/unnamed/part_003` lines 675-680: the body of the
POST the `requestWithdrawal` click handler sends.  It is a constant: it
does not depend on the referral statistics or any wallet state, and
carries no amount. -/
def clientWithdrawBody : WithdrawRequestBody :=
  { method := "bank_transfer" }

/-- The key-value pairs of the serialized withdrawal request body. -/
def withdrawBodyFields (b : WithdrawRequestBody) : List (String × String) :=
  [("method", b.method)]

/-- Embedded from `src/unnamed/part_003` lines 745-746: the withdrawal
section (with the withdraw button) is rendered exactly when
`referralStats.available_for_withdrawal > 0`. -/
def showWithdrawalSection (stats : ReferralStats) : Bool :=
  stats.available_for_withdrawal > 0

/-! ## Translation lookup

The repository has two versions of the translation lookup `t`.  The flat
one (`src/unnamed/part_003` lines 2953-2962) indexes one table level and
falls back through JavaScript `||`; the nested one
(`src/github_updates/App.js` lines 501-521) walks dot-separated keys
through a nested table and substitutes `\x7bparam\x7d` placeholders with
a global regex.  Both are embedded parametrically in the translation
table they close over. -/

/-- The opening brace character, written by code point. -/
def lbrace : Char := Char.ofNat 123

/-- The closing brace character, written by code point. -/
def rbrace : Char := Char.ofNat 125

/-- JavaScript `x || y` on a possibly-undefined string `x`: `y` when `x`
is undefined or the (falsy) empty string, otherwise `x`. -/
def jsOr (x : Option String) (y : String) : String :=
  match x with
  | some s => if s = "" then y else s
  | none => y

/-- JavaScript `s.replace(pat, repl)` with a string pattern: replace only
the first occurrence of `pat`, or leave `s` unchanged when `pat` does not
occur. -/
def replaceFirst (s pat repl : String) : String :=
  match s.splitOn pat with
  | [] => s
  | [_] => s
  | a :: rest => a ++ repl ++ String.intercalate pat rest

/-- The parameter-substitution loop of the flat `t`
(`src/unnamed/part_003` lines 2957-2959): for each supplied parameter in
order, replace the first occurrence of its `\x7bparam\x7d` placeholder. -/
def applyParams (params : List (String × String)) (s : String) : String :=
  params.foldl (fun acc pv => replaceFirst acc ("\x7b" ++ pv.1 ++ "\x7d") pv.2) s

/-- Embedded from `src/unnamed/part_003` lines 2953-2962: the flat
translation lookup `t`.  The table is the `translations` constant the
source closes over, one optional language table of optional entries; the
source table always has an `en` entry.  Lookup is
`translations[language]?.[key] || translations.en[key] || key` with
JavaScript falsy fallback, then parameter substitution. -/
def tFlat (tbl : String → Option (String → Option String)) (language key : String)
    (params : List (String × String)) : String :=
  applyParams params
    (jsOr ((tbl language).bind fun m => m key)
      (jsOr ((tbl "en").bind fun m => m key) key))

/-- A value of the nested `translations` object of
`src/github_updates/App.js`: a string entry or a nested object. -/
inductive TransVal where
  | str (s : String)
  | obj (fields : List (String × TransVal))

/-- Embedded from `src/github_updates/App.js` lines 505-511: the loop
walking the dot-separated key segments.  While the current value is an
object, index it by the next segment (an absent field leaves JavaScript
`undefined`, i.e. `none`); reaching a string or `undefined` breaks out
and keeps that value. -/
def walkKeys : Option TransVal → List String → Option TransVal
  | v, [] => v
  | none, _ :: _ => none
  | some (.str s), _ :: _ => some (.str s)
  | some (.obj fields), k :: ks => walkKeys (fields.lookup k) ks

/-- A JavaScript word character, as matched by the character class in the
placeholder pattern: an ASCII letter, digit or underscore. -/
def isWordChar (c : Char) : Bool :=
  c.isAlphanum || c = '_'

/-- Scanner for the global placeholder replacement of
`src/github_updates/App.js` lines 514-517: find each
brace-word-brace occurrence left to right; replace it by the supplied
parameter value, or keep the matched text when that parameter is not
supplied.  The fuel argument only bounds the recursion; every step
consumes at least one character, so fuel equal to the input length never
runs out. -/
def substParamsAux (params : List (String × String)) : Nat → List Char → List Char
  | 0, l => l
  | _ + 1, [] => []
  | fuel + 1, c :: rest =>
    if c = lbrace then
      match rest.dropWhile isWordChar with
      | c2 :: tail =>
        if c2 = rbrace ∧ rest.takeWhile isWordChar ≠ [] then
          match params.lookup (String.mk (rest.takeWhile isWordChar)) with
          | some v => v.data ++ substParamsAux params fuel tail
          | none => c :: (rest.takeWhile isWordChar ++ c2 :: substParamsAux params fuel tail)
        else
          c :: substParamsAux params fuel rest
      | [] => c :: substParamsAux params fuel rest
    else
      c :: substParamsAux params fuel rest

/-- Global placeholder replacement on a string: JavaScript
`value.replace` with the global word-in-braces pattern, substituting a
supplied parameter and keeping the matched text otherwise. -/
def substParams (params : List (String × String)) (s : String) : String :=
  String.mk (substParamsAux params s.data.length s.data)

/-- Embedded from `src/github_updates/App.js` lines 501-521: the nested
translation lookup `t`.  Split the key on dots, walk the selected
language's table; when the walk ends on a string, return it with
placeholders substituted, otherwise return the key itself. -/
def tNested (tbl : String → Option TransVal) (language key : String)
    (params : List (String × String)) : String :=
  match walkKeys (tbl language) (key.splitOn ".") with
  | some (.str s) => substParams params s
  | _ => key

/-! ## Claims -/

/-- C1: for every user progression record and every valid XP application,
the stored level equals `floor(total_xp / 100) + 1` after the operation
and `total_xp` never decreases; a freshly initialized user with
`total_xp = 0` has level 1. -/
theorem claim_c1_xp_level_invariant (r : ProgressionRecord) (amount : Nat)
    (r' : ProgressionRecord) (h : applyXp r amount = Except.ok r') :
    r'.level = r'.total_xp / 100 + 1 ∧ r.total_xp ≤ r'.total_xp ∧
    defaultUser.total_xp = 0 ∧ defaultUser.level = 1 ∧
    defaultUser.level = defaultUser.total_xp / 100 + 1 := by
  unfold applyXp at h
  split at h
  · exact absurd h (by simp)
  · rw [Except.ok.injEq] at h
    subst h
    exact ⟨rfl, Nat.le_add_right _ _, rfl, rfl, by decide⟩

/-- Witness for C1 at a concrete valid application: awarding 10 XP to the
fresh free user. -/
theorem claim_c1_witness :
    (⟨10, 1, 0, 0, Tier.free, []⟩ : ProgressionRecord).level
        = (⟨10, 1, 0, 0, Tier.free, []⟩ : ProgressionRecord).total_xp / 100 + 1
      ∧ (⟨0, 1, 0, 0, Tier.free, []⟩ : ProgressionRecord).total_xp
        ≤ (⟨10, 1, 0, 0, Tier.free, []⟩ : ProgressionRecord).total_xp
      ∧ defaultUser.total_xp = 0 ∧ defaultUser.level = 1
      ∧ defaultUser.level = defaultUser.total_xp / 100 + 1 :=
  claim_c1_xp_level_invariant ⟨0, 1, 0, 0, Tier.free, []⟩ 10
    ⟨10, 1, 0, 0, Tier.free, []⟩ (by rfl)

/-- C2: for a premium-like tier `applyXp` adds `floor(amount * 1.20)` XP,
for the free tier exactly the base amount; a base award of 10 XP under
`premium_monthly` adds exactly 12 XP. -/
theorem claim_c2_premium_bonus (r : ProgressionRecord) (amount : Nat)
    (h : 0 < amount) :
    (isPremiumUser (tierString r.subscription_tier) = true →
      ∃ r', applyXp r amount = Except.ok r'
        ∧ r'.total_xp = r.total_xp + amount * 12 / 10) ∧
    (r.subscription_tier = Tier.free →
      ∃ r', applyXp r amount = Except.ok r'
        ∧ r'.total_xp = r.total_xp + amount) ∧
    (r.subscription_tier = Tier.premium_monthly →
      ∃ r', applyXp r 10 = Except.ok r'
        ∧ r'.total_xp = r.total_xp + 12) := by
  have hne : amount ≠ 0 := Nat.pos_iff_ne_zero.mp h
  refine ⟨fun hp => ?_, fun hf => ?_, fun hm => ?_⟩
  · refine ⟨{ r with
        total_xp := r.total_xp + amount * 12 / 10
        level := levelFor (r.total_xp + amount * 12 / 10) }, ?_, rfl⟩
    simp [applyXp, hne, bonusXp, hp]
  · have hfr : isPremiumUser (tierString r.subscription_tier) = false := by
      rw [hf]; decide
    refine ⟨{ r with
        total_xp := r.total_xp + amount
        level := levelFor (r.total_xp + amount) }, ?_, rfl⟩
    simp [applyXp, hne, bonusXp, hfr]
  · have hp : isPremiumUser (tierString r.subscription_tier) = true := by
      rw [hm]; decide
    refine ⟨{ r with
        total_xp := r.total_xp + 12
        level := levelFor (r.total_xp + 12) }, ?_, rfl⟩
    simp [applyXp, bonusXp, hp]

/-- Witness for C2: a base award of 10 XP to a `premium_monthly` user
adds exactly 12 XP. -/
theorem claim_c2_witness :
    ∃ r', applyXp ⟨0, 1, 0, 0, Tier.premium_monthly, []⟩ 10 = Except.ok r'
      ∧ r'.total_xp
        = (⟨0, 1, 0, 0, Tier.premium_monthly, []⟩ : ProgressionRecord).total_xp + 12 :=
  (claim_c2_premium_bonus ⟨0, 1, 0, 0, Tier.premium_monthly, []⟩ 10 (by decide)).2.2 rfl

/-- C3: the premium-like check returns true exactly for the four
premium-like tiers (with `legacy_premium` stored as the pre-migration
string) and false for `free`. -/
theorem claim_c3_isPremiumLike (t : Tier) :
    (isPremiumUser (tierString t) = true ↔
      (t = Tier.premium_monthly ∨ t = Tier.premium_yearly
        ∨ t = Tier.premium_lifetime ∨ t = Tier.legacy_premium)) ∧
    isPremiumUser (tierString Tier.free) = false := by
  cases t <;> exact ⟨by decide, by decide⟩

/-- C4: `updateStreak` increments the streak on a one-day gap, is a
no-op on the same day (so a second same-day application changes nothing),
and resets the streak to 1 on a gap of more than one day. -/
theorem claim_c4_updateStreak (r : ProgressionRecord) (d : Nat) :
    (d = r.last_activity_date + 1 →
      (updateStreak r d).current_streak = r.current_streak + 1) ∧
    (d = r.last_activity_date → updateStreak r d = r) ∧
    updateStreak (updateStreak r d) d = updateStreak r d ∧
    (r.last_activity_date + 1 < d → (updateStreak r d).current_streak = 1) := by
  refine ⟨fun hd => ?_, fun hd => ?_, ?_, fun hgap => ?_⟩
  · have h1 : d ≠ r.last_activity_date := by omega
    simp [updateStreak, h1, hd]
  · simp [updateStreak, hd]
  · by_cases h1 : d = r.last_activity_date
    · simp [updateStreak, h1]
    · by_cases h2 : d = r.last_activity_date + 1
      · subst h2
        simp [updateStreak, Nat.succ_ne_self]
      · by_cases h3 : r.last_activity_date + 1 < d
        · simp [updateStreak, h1, h2, h3]
        · simp [updateStreak, h1, h2, h3]
  · have h1 : d ≠ r.last_activity_date := by omega
    have h2 : d ≠ r.last_activity_date + 1 := by omega
    simp [updateStreak, h1, h2, hgap]

/-- Witness for C4: a record last active on day 5 with streak 3, touched
on days 6 (increment), 5 (no change) and 9 (reset). -/
theorem claim_c4_witness :
    (updateStreak ⟨0, 1, 3, 5, Tier.free, []⟩ 6).current_streak
        = (⟨0, 1, 3, 5, Tier.free, []⟩ : ProgressionRecord).current_streak + 1
      ∧ updateStreak ⟨0, 1, 3, 5, Tier.free, []⟩ 5 = ⟨0, 1, 3, 5, Tier.free, []⟩
      ∧ (updateStreak ⟨0, 1, 3, 5, Tier.free, []⟩ 9).current_streak = 1 :=
  ⟨(claim_c4_updateStreak ⟨0, 1, 3, 5, Tier.free, []⟩ 6).1 rfl,
   (claim_c4_updateStreak ⟨0, 1, 3, 5, Tier.free, []⟩ 5).2.1 rfl,
   (claim_c4_updateStreak ⟨0, 1, 3, 5, Tier.free, []⟩ 9).2.2.2 (by decide)⟩

/-- C5: accruing the commission for a pending referral edge credits the
referrer's wallet with exactly the tier-determined amount (monthly EUR 5,
yearly EUR 15, lifetime EUR 25), and a second delivery of the activation
event leaves the edge and the wallet unchanged. -/
theorem claim_c5_commission (e : ReferralEdge) (t : Tier) (w : CommissionWallet)
    (h : e.status = CommissionStatus.pending) :
    (accrueCommission e t w).2.available_balance
        = w.available_balance + commissionCents t ∧
    commissionCents Tier.premium_monthly = 500 ∧
    commissionCents Tier.premium_yearly = 1500 ∧
    commissionCents Tier.premium_lifetime = 2500 ∧
    accrueCommission (accrueCommission e t w).1 t (accrueCommission e t w).2
        = accrueCommission e t w := by
  refine ⟨by simp [accrueCommission, h], rfl, rfl, rfl, ?_⟩
  simp [accrueCommission, h]

/-- Witness for C5: a pending edge whose referred user activates
`premium_yearly` credits the referrer exactly EUR 15. -/
theorem claim_c5_witness :
    (accrueCommission ⟨"u1", "u2", CommissionStatus.pending, 0⟩
        Tier.premium_yearly ⟨0, 0, []⟩).2.available_balance
      = (⟨0, 0, []⟩ : CommissionWallet).available_balance
          + commissionCents Tier.premium_yearly :=
  (claim_c5_commission ⟨"u1", "u2", CommissionStatus.pending, 0⟩
    Tier.premium_yearly ⟨0, 0, []⟩ rfl).1

/-- C6: a withdrawal request above the available balance fails with
`InsufficientBalance` (yielding no updated wallet, so the wallet is
unchanged); on success the balance decreases by the amount and a pending
withdrawal record is appended. -/
theorem claim_c6_withdrawal (w : CommissionWallet) (amount : Int) (now : Nat) :
    (w.available_balance < amount →
      requestWithdrawal w amount now = Except.error LedgerError.insufficientBalance) ∧
    (amount ≤ w.available_balance →
      requestWithdrawal w amount now = Except.ok
        { w with
            available_balance := w.available_balance - amount
            withdrawal_history :=
              w.withdrawal_history ++ [⟨amount, now, WithdrawalStatus.pending⟩] }) := by
  constructor
  · intro hlt
    simp [requestWithdrawal, hlt]
  · intro hle
    simp [requestWithdrawal, not_lt.mpr hle]

/-- Witness for C6: requesting EUR 20 from a EUR 10 balance fails, while
requesting EUR 5 succeeds and appends the pending record. -/
theorem claim_c6_witness :
    requestWithdrawal ⟨1500, 1000, []⟩ 2000 7
        = Except.error LedgerError.insufficientBalance
      ∧ requestWithdrawal ⟨1500, 1000, []⟩ 500 7
        = Except.ok ⟨1500, 500, [⟨500, 7, WithdrawalStatus.pending⟩]⟩ :=
  ⟨(claim_c6_withdrawal ⟨1500, 1000, []⟩ 2000 7).1 (by decide),
   (claim_c6_withdrawal ⟨1500, 1000, []⟩ 500 7).2 (by decide)⟩

/-- C7: the Unlock Evaluator returns exactly the catalog entries whose
predicate holds after but not before and whose id is not already
unlocked; it never re-adds a present id, and identical before/after
records unlock nothing. -/
theorem claim_c7_unlock_evaluator (before after : ProgressionRecord)
    (catalog : List RewardDefinition) :
    (∀ d, d ∈ evaluateUnlocks before after catalog ↔
      d ∈ catalog ∧ d.predicate after = true ∧ d.predicate before = false ∧
        d.id ∉ after.unlocked_achievement_ids) ∧
    (∀ d, d ∈ evaluateUnlocks before after catalog →
      d.id ∉ after.unlocked_achievement_ids) ∧
    evaluateUnlocks after after catalog = [] := by
  have hmem : ∀ d, d ∈ evaluateUnlocks before after catalog ↔
      d ∈ catalog ∧ d.predicate after = true ∧ d.predicate before = false ∧
        d.id ∉ after.unlocked_achievement_ids := by
    intro d
    simp [evaluateUnlocks, List.mem_filter, and_assoc]
  refine ⟨hmem, fun d hd => ((hmem d).mp hd).2.2.2, ?_⟩
  unfold evaluateUnlocks
  rw [List.filter_eq_nil_iff]
  intro d _
  cases hda : d.predicate after <;> simp [hda]

/-- Witness for C7: a level-milestone entry unlocks on the transition
from level 1 to level 5, while identical records unlock nothing. -/
theorem claim_c7_witness :
    (⟨"level_5", fun r => decide (5 ≤ r.level), 100⟩ : RewardDefinition) ∈
      evaluateUnlocks ⟨0, 1, 0, 0, Tier.free, []⟩ ⟨400, 5, 0, 0, Tier.free, []⟩
        [⟨"level_5", fun r => decide (5 ≤ r.level), 100⟩] :=
  ((claim_c7_unlock_evaluator ⟨0, 1, 0, 0, Tier.free, []⟩ ⟨400, 5, 0, 0, Tier.free, []⟩
      [⟨"level_5", fun r => decide (5 ≤ r.level), 100⟩]).1
    ⟨"level_5", fun r => decide (5 ≤ r.level), 100⟩).mpr
    ⟨by simp, by decide, by decide, by simp⟩

/-- C8: completing a focus period transitions to `short_break`,
completing either break transitions to `focus`, and the server-side
completion endpoint is invoked exactly when the finished period is
`focus` and a session id is present. -/
theorem claim_c8_pomodoro (s : TimerState) :
    (s.sessionType = SessionType.focus →
      (handleSessionComplete s).1.sessionType = SessionType.short_break) ∧
    (s.sessionType = SessionType.short_break →
      (handleSessionComplete s).1.sessionType = SessionType.focus) ∧
    (s.sessionType = SessionType.long_break →
      (handleSessionComplete s).1.sessionType = SessionType.focus) ∧
    ((handleSessionComplete s).2 = true ↔
      s.currentSessionId ≠ none ∧ s.sessionType = SessionType.focus) := by
  obtain ⟨st, sid, act, tl⟩ := s
  cases st <;> cases sid <;>
    simp [handleSessionComplete, sessionNext]

/-- Witness for C8: completing a started focus period moves to the short
break, and completing a short break moves back to focus. -/
theorem claim_c8_witness :
    (handleSessionComplete ⟨SessionType.focus, some "sess1", true, 0⟩).1.sessionType
        = SessionType.short_break
      ∧ (handleSessionComplete ⟨SessionType.short_break, none, true, 0⟩).1.sessionType
        = SessionType.focus :=
  ⟨(claim_c8_pomodoro ⟨SessionType.focus, some "sess1", true, 0⟩).1 rfl,
   (claim_c8_pomodoro ⟨SessionType.short_break, none, true, 0⟩).2.1 rfl⟩

/-- C9: the client-side withdrawal request body carries only a payment
method and no amount, independent of the wallet state, and the
withdrawal controls are rendered exactly when the available-for-
withdrawal amount is strictly positive. -/
theorem claim_c9_client_withdraw (stats : ReferralStats) :
    (showWithdrawalSection stats = true ↔ 0 < stats.available_for_withdrawal) ∧
    withdrawBodyFields clientWithdrawBody = [("method", "bank_transfer")] ∧
    (∀ b : WithdrawRequestBody, "amount" ∉ (withdrawBodyFields b).map Prod.fst) := by
  refine ⟨?_, rfl, ?_⟩
  · simp [showWithdrawalSection]
  · intro b
    simp [withdrawBodyFields]

/-- Witness for C9: the withdrawal section is shown for a user with EUR 5
available. -/
theorem claim_c9_witness :
    showWithdrawalSection ⟨500, 500, 500, 1, "DEMO123", "https://x/r/DEMO123"⟩ = true :=
  (claim_c9_client_withdraw ⟨500, 500, 500, 1, "DEMO123", "https://x/r/DEMO123"⟩).1.mpr
    (by decide)

/-- With no supplied parameters the placeholder scanner reproduces its
input: a parameter lookup never succeeds, so every matched placeholder is
replaced by its own text. -/
theorem substParamsAux_nil_params (fuel : Nat) (l : List Char) :
    substParamsAux [] fuel l = l := by
  induction fuel generalizing l with
  | zero => rfl
  | succ n ih =>
    cases l with
    | nil => rfl
    | cons c rest =>
      rw [substParamsAux]
      by_cases hc : c = lbrace
      · rw [if_pos hc]
        cases hd : rest.dropWhile isWordChar with
        | nil => simp only [hd, ih]
        | cons c2 tail =>
          simp only [hd]
          by_cases hbr : c2 = rbrace ∧ rest.takeWhile isWordChar ≠ []
          · simp only [if_pos hbr, List.lookup_nil, ih]
            rw [← hd, List.takeWhile_append_dropWhile]
          · rw [if_neg hbr, ih]
      · rw [if_neg hc, ih]

/-- With no supplied parameters the global placeholder replacement leaves
the string unchanged. -/
theorem substParams_nil (s : String) : substParams [] s = s := by
  rw [substParams, substParamsAux_nil_params]

/-- C10: the translation lookups are total: the flat `t` returns the
selected language's (non-falsy) entry with parameters applied, otherwise
the English entry, otherwise the key; the nested `t` returns either the
found string with parameters substituted or the key itself; and
placeholders are replaced only when their parameter is supplied, so an
empty parameter object changes nothing. -/
theorem claim_c10_translation
    (tbl : String → Option (String → Option String))
    (mtbl : String → Option TransVal)
    (language key : String) (params : List (String × String)) :
    (∀ s, ((tbl language).bind fun m => m key) = some s → s ≠ "" →
      tFlat tbl language key params = applyParams params s) ∧
    (∀ s, (((tbl language).bind fun m => m key) = none ∨
            ((tbl language).bind fun m => m key) = some "") →
      ((tbl "en").bind fun m => m key) = some s → s ≠ "" →
      tFlat tbl language key params = applyParams params s) ∧
    ((((tbl language).bind fun m => m key) = none ∨
        ((tbl language).bind fun m => m key) = some "") →
      (((tbl "en").bind fun m => m key) = none ∨
        ((tbl "en").bind fun m => m key) = some "") →
      tFlat tbl language key params = applyParams params key) ∧
    (∀ s, applyParams [] s = s) ∧
    ((∃ s, walkKeys (mtbl language) (key.splitOn ".") = some (TransVal.str s) ∧
        tNested mtbl language key params = substParams params s) ∨
      tNested mtbl language key params = key) ∧
    (∀ s, substParams [] s = s) := by
  refine ⟨?_, ?_, ?_, fun s => rfl, ?_, substParams_nil⟩
  · intro s hs hne
    simp [tFlat, hs, jsOr, hne]
  · intro s hmiss hs hne
    rcases hmiss with hm | hm <;> simp [tFlat, hm, hs, jsOr, hne]
  · intro hmiss hmiss2
    rcases hmiss with hm | hm <;> rcases hmiss2 with hm2 | hm2 <;>
      simp [tFlat, hm, hm2, jsOr]
  · cases hw : walkKeys (mtbl language) (key.splitOn ".") with
    | none => exact Or.inr (by simp [tNested, hw])
    | some v =>
      cases v with
      | str s => exact Or.inl ⟨s, rfl, by simp [tNested, hw]⟩
      | obj fields => exact Or.inr (by simp [tNested, hw])

/-- A two-language demo table for the flat translation lookup. -/
def demoFlatTable : String → Option (String → Option String) := fun lang =>
  if lang = "de" then
    some fun k => if k = "addTaskXp" then some "Aufgabe (+\x7bxp\x7d XP)" else none
  else if lang = "en" then
    some fun k => if k = "addTaskXp" then some "Add Task (+\x7bxp\x7d XP)" else none
  else none

/-- A one-language demo table for the nested translation lookup. -/
def demoNestedTable : String → Option TransVal := fun lang =>
  if lang = "en" then
    some (TransVal.obj [("addTaskXp", TransVal.str "Add Task (+\x7bxp\x7d XP)")])
  else none

/-- Witness for C10: looking up a present German entry returns it with
the supplied parameter applied. -/
theorem claim_c10_witness :
    tFlat demoFlatTable "de" "addTaskXp" [("xp", "12")]
      = applyParams [("xp", "12")] "Aufgabe (+\x7bxp\x7d XP)" :=
  (claim_c10_translation demoFlatTable demoNestedTable "de" "addTaskXp"
      [("xp", "12")]).1 "Aufgabe (+\x7bxp\x7d XP)" rfl (by decide)

end FokusFlow
